import Mathlib

/-!
Verification of the numerical core of the deep-rl repository
(src/proj/common/utils.py, src/proj/algorithms/natural.py,
src/proj/algorithms/ddpg.py).

Machine floats are modelled by exact field arithmetic: rationals where the
code is evaluated concretely, reals where square roots and derivatives
occur. A division whose denominator is zero is the embedding's analogue of
the float code producing inf or NaN, and is tracked explicitly by an
instrumented variant of the conjugate-gradient loop where a claim is about
such degeneracies. Autograd passes are modelled by mathematical
derivatives, with the policy's parameter vector modelled by a single real
coordinate where claims are about differentiation structure.
-/

section Definitions

variable {K : Type} [LinearOrderedField K] {n : ℕ}

/-- Dot product of two vectors, the embedding of torch.dot. -/
def dot (v w : Fin n → K) : K := ∑ i, v i * w i

/-- Loop state of conjugate_gradient (src/proj/common/utils.py lines 17-39):
iterate x, residual r, search direction p, and the cached scalar rdotr
holding torch.dot(r, r). -/
structure CGState (K : Type) (n : ℕ) where
  x : Fin n → K
  r : Fin n → K
  p : Fin n → K
  rdotr : K

/-- Initial state of the solver: p = b.clone(), r = b.clone(),
x = torch.zeros_like(b), rdotr = torch.dot(r, r). -/
def cgInit (b : Fin n → K) : CGState K n :=
  ⟨fun _ => 0, b, b, dot b b⟩

/-- One execution of the body of the `for i in range(cg_iters)` loop of
conjugate_gradient: z = f_Ax(p); v = rdotr/dot(p,z); x += v*p; r -= v*z;
newrdotr = dot(r,r); mu = newrdotr/rdotr; p = r + mu*p; rdotr = newrdotr. -/
def cgStep (f : (Fin n → K) → Fin n → K) (s : CGState K n) : CGState K n :=
  let z := f s.p
  let v := s.rdotr / dot s.p z
  let x := fun i => s.x i + v * s.p i
  let r := fun i => s.r i - v * z i
  let newrdotr := dot r r
  let mu := newrdotr / s.rdotr
  let p := fun i => r i + mu * s.p i
  ⟨x, r, p, newrdotr⟩

/-- The `for i in range(cg_iters)` loop of conjugate_gradient, with the
`if rdotr < residual_tol: break` check at the end of each iteration body
(after all of the iteration's updates). -/
def cgLoop (f : (Fin n → K) → Fin n → K) (tol : K) : ℕ → CGState K n → CGState K n
  | 0, s => s
  | k + 1, s =>
    let s' := cgStep f s
    if s'.rdotr < tol then s' else cgLoop f tol k s'

/-- conjugate_gradient(f_Ax, b, cg_iters=10, residual_tol=1e-10) from
src/proj/common/utils.py: runs the loop from the initial state and returns
the iterate x. The Python defaults are cg_iters = 10, residual_tol = 1e-10. -/
def conjugate_gradient (f : (Fin n → K) → Fin n → K) (b : Fin n → K)
    (cg_iters : ℕ) (residual_tol : K) : Fin n → K :=
  (cgLoop f residual_tol cg_iters (cgInit b)).x

/-- State of the conjugate-gradient recurrence exactly as the claim words
it: iterate x, residual r, search direction p (no cached scalar). -/
structure CGSpecState (K : Type) (n : ℕ) where
  x : Fin n → K
  r : Fin n → K
  p : Fin n → K

/-- One iteration exactly as the claim states it: z = f(p),
alpha = (r.r)/(p.z), x += alpha*p, r -= alpha*z, then
beta = r_new.r_new/r_old.r_old and p = r_new + beta*p. -/
def cgSpecStep (f : (Fin n → K) → Fin n → K) (s : CGSpecState K n) : CGSpecState K n :=
  let z := f s.p
  let alpha := dot s.r s.r / dot s.p z
  let x := fun i => s.x i + alpha * s.p i
  let r := fun i => s.r i - alpha * z i
  let beta := dot r r / dot s.r s.r
  let p := fun i => r i + beta * s.p i
  ⟨x, r, p⟩

/-- The claim's loop: at most cg_iters iterations, stopping as soon as r.r
has fallen below residual_tol at the end of an iteration. -/
def cgSpecLoop (f : (Fin n → K) → Fin n → K) (tol : K) :
    ℕ → CGSpecState K n → CGSpecState K n
  | 0, s => s
  | k + 1, s =>
    let s' := cgSpecStep f s
    if dot s'.r s'.r < tol then s' else cgSpecLoop f tol k s'

/-- The claim's solver: r and p initialized to b, x to zero, run the
recurrence, return x. -/
def cgSpecRun (f : (Fin n → K) → Fin n → K) (b : Fin n → K)
    (cg_iters : ℕ) (tol : K) : Fin n → K :=
  (cgSpecLoop f tol cg_iters ⟨fun _ => 0, b, b⟩).x

/-- Instrumented copy of the loop of conjugate_gradient: along with the
final state it returns, per executed iteration, the pair
(rdotr, torch.dot(p, z)): the numerator of v (which is also the
denominator of mu) and the denominator of v = rdotr / torch.dot(p, z). -/
def cgLoopT (f : (Fin n → K) → Fin n → K) (tol : K) :
    ℕ → CGState K n → CGState K n × List (K × K)
  | 0, s => (s, [])
  | k + 1, s =>
    let d := (s.rdotr, dot s.p (f s.p))
    let s' := cgStep f s
    if s'.rdotr < tol then (s', [d])
    else
      let t := cgLoopT f tol k s'
      (t.1, d :: t.2)

/-- All divisions recorded by cgLoopT are non-degenerate: nonzero numerator
rdotr (which is also the denominator of mu) and nonzero denominator
torch.dot(p, z). A zero denominator is the exact-arithmetic analogue of the
float code producing inf or NaN. -/
def divsOk (l : List (K × K)) : Prop := ∀ d ∈ l, d.1 ≠ 0 ∧ d.2 ≠ 0

/-- The scalar mean-KL objective built by fisher_vector_product
(src/proj/common/utils.py lines 46-51):
avg_kl = kl(policy.pdtype(dists.flatparam().detach()), dists).mean(), as a
function of the policy parameters (modelled by one real coordinate). The
first argument of the KL functional is the policy's current distribution
frozen (detached) at the current parameters theta0; the second is the
differentiable distribution at the argument theta. klf is the mean KL
functional over the batch of observations and D the type of the policy's
batched action distribution. -/
def avgKL {D : Type} (klf : D → D → ℝ) (dists : ℝ → D) (theta0 : ℝ) : ℝ → ℝ :=
  fun theta => klf (dists theta0) (dists theta)

/-- fisher_vector_product(v, obs, policy, damping=1e-3) from
src/proj/common/utils.py lines 46-51, for a policy with a one-dimensional
parameter vector: grad = flat_grad(avg_kl, params, create_graph=True) is
the derivative of avg_kl kept differentiable; grad.matmul(v) is grad * v;
fvp = flat_grad(grad.matmul(v), params).detach() is the derivative of that
product, detached (taken as a plain value); the result is fvp + v * damping.
The Python default damping is 1e-3. -/
noncomputable def fisher_vector_product {D : Type} (klf : D → D → ℝ) (dists : ℝ → D)
    (theta0 v damping : ℝ) : ℝ :=
  deriv (fun theta => deriv (avgKL klf dists theta0) theta * v) theta0 + v * damping

/-- The mutable training state touched by one iteration of the natural
entry point (src/proj/algorithms/natural.py): the policy's flattened
parameter vector and the value function's flattened parameter vector. -/
structure TrainState (n m : ℕ) where
  policyParams : Fin n → ℝ
  valFnParams : Fin m → ℝ

/-- The natural-gradient step of natural (src/proj/algorithms/natural.py
lines 89-104): pol_grad = flat_grad(pol_loss, policy.parameters());
descent_direction = conjugate_gradient(fvp, pol_grad) with the solver's
default cg_iters=10 and residual_tol=1e-10;
scale = torch.sqrt(2 * delta / (pol_grad.dot(descent_direction) + 1e-8));
descent_step = descent_direction * scale;
new_params = parameters_to_vector(policy.parameters()) - descent_step;
vector_to_parameters(new_params, policy.parameters()).
The policy-gradient computation and the Fisher-vector product are supplied
as oracles polGrad and fvp on the parameter vector (natural.py builds them
from the collected batch; fvp is the solver imported as conjugate_gradient,
modelled by the in-repo solver of src/proj/common/utils.py). Only the
policy's parameters are written; the value-function parameters pass
through. -/
noncomputable def naturalStep {n m : ℕ} (polGrad fvp : (Fin n → ℝ) → Fin n → ℝ)
    (delta : ℝ) (s : TrainState n m) : TrainState n m :=
  let pol_grad := polGrad s.policyParams
  let descent_direction := conjugate_gradient fvp pol_grad 10 (1e-10)
  let scale := Real.sqrt (2 * delta / (dot pol_grad descent_direction + 1e-8))
  let descent_step := fun i => scale * descent_direction i
  ⟨fun i => s.policyParams i - descent_step i, s.valFnParams⟩

/-- Counters for the four operations of one learning substep of ddpg
(src/proj/algorithms/ddpg.py lines 121-138): one replay minibatch sample,
one critic (q_func) gradient step, one actor (policy) gradient step, and
one Polyak update of each of the two target networks. -/
structure UpdateCounts where
  sampled : ℕ
  criticSteps : ℕ
  actorSteps : ℕ
  polyakPi : ℕ
  polyakQf : ℕ
deriving DecidableEq

/-- One learning substep of the inner `for` loop of ddpg: it performs each
of the four operations exactly once. -/
def learnSubstep (c : UpdateCounts) : UpdateCounts :=
  ⟨c.sampled + 1, c.criticSteps + 1, c.actorSteps + 1, c.polyakPi + 1, c.polyakQf + 1⟩

/-- Python's int() conversion on a rational value: truncation toward zero. -/
def pyInt (q : ℚ) : ℤ := if 0 ≤ q then ⌊q⌋ else ⌈q⌉

/-- The post-episode update block of ddpg (src/proj/algorithms/ddpg.py
lines 120-140): `if (dones[0] or ep_length == max_ep_length) and
replay.size >= mb_size:` run `for _ in range(int(ep_length *
updates_per_step))` learning substeps and reset ep_length to 0; otherwise
do nothing and keep ep_length. Returns the updated counters and the
updated ep_length. -/
def ddpgUpdateBlock (done0 : Bool) (ep_length max_ep_length replaySize mb_size : ℕ)
    (updates_per_step : ℚ) (c : UpdateCounts) : UpdateCounts × ℕ :=
  if (done0 = true ∨ ep_length = max_ep_length) ∧ mb_size ≤ replaySize then
    (learnSubstep^[(pyInt (ep_length * updates_per_step)).toNat] c, 0)
  else (c, ep_length)

/-- The done-flag rewrite of ddpg (src/proj/algorithms/ddpg.py line 112):
`dones[0] = False if ep_length == max_ep_length else dones[0]`. The
resulting list is what is stored in the replay buffer (one transition per
parallel environment, src/proj/algorithms/ddpg.py lines 114-116). -/
def storeDones (dones : List Bool) (ep_length max_ep_length : ℕ) : List Bool :=
  if ep_length = max_ep_length then dones.set 0 false else dones

/-- Acceptance of the configuration scalars gamma, gaelam and delta by the
natural entry point (src/proj/algorithms/natural.py): no statement of the
function body inspects them before the training loop — there is no
conditional raise on them anywhere, and none of them is passed to any
collaborator constructed before the loop — their first uses
(compute_pg_vars for gamma and gaelam, the step scale for delta) are
inside the loop. So every value is accepted with no error before any
training step. -/
def naturalConfigCheck (gamma gaelam delta : ℚ) : Except String Unit :=
  Except.ok ()

/-- Acceptance of the discount gamma by the ddpg entry point
(src/proj/algorithms/ddpg.py): no statement of the function body inspects
gamma before the training loop — gamma is not validated anywhere and is
not passed to any collaborator constructed before the loop (ReplayBuffer
receives only replay_size and the spaces) — its first and only use is the
critic target at line 123, inside the loop. So every gamma is accepted
with no error before any training step. (Whether ReplayBuffer itself
validates replay_size or mb_size is decided by proj/common/sampling.py,
which is not part of the sources under verification, and is deliberately
not modelled here.) -/
def ddpgConfigCheck (gamma : ℚ) : Except String Unit :=
  Except.ok ()

/-- The critic regression target of ddpg (src/proj/algorithms/ddpg.py
line 123): targs = rew_ + gamma * (1 - done_) * qf_targ(ob_2, pi_targ(ob_2)),
per minibatch element, with qval the target network's value. -/
def qTarget (gamma rew done qval : ℚ) : ℚ :=
  rew + gamma * (1 - done) * qval

/-- torch mean of a one-dimensional tensor. -/
def torchMean {m : ℕ} (v : Fin m → ℚ) : ℚ := (∑ i, v i) / m

/-- torch.var of a one-dimensional tensor: unbiased sample variance,
dividing by m - 1 (torch's default correction). -/
def torchVar {m : ℕ} (v : Fin m → ℚ) : ℚ :=
  (∑ i, (v i - torchMean v) ^ 2) / ((m : ℚ) - 1)

/-- np.isclose(a, 0) with numpy's default tolerances rtol=1e-5, atol=1e-8:
|a - 0| <= atol + rtol * |0|. -/
def npIsCloseZero (a : ℚ) : Bool := |a - 0| ≤ 1e-8 + 1e-5 * |0|

/-- explained_variance_1d(ypred, y) from src/proj/common/utils.py lines
54-62; the source's assert that both inputs are one-dimensional is
reflected in the inputs' type. vary = y.var(); if np.isclose(vary, 0):
return 0 if ypred.var() > 1e-8 else 1; else return
1 - torch.var(y - ypred) / (vary + 1e-8). -/
def explained_variance_1d {m : ℕ} (ypred y : Fin m → ℚ) : ℚ :=
  if npIsCloseZero (torchVar y) then
    if 1e-8 < torchVar ypred then 0 else 1
  else 1 - torchVar (fun i => y i - ypred i) / (torchVar y + 1e-8)

end Definitions

section ConjugateGradientLemmas

variable {K : Type} [LinearOrderedField K] {n : ℕ}

lemma cgStep_eq_spec (f : (Fin n → K) → Fin n → K) (s : CGState K n)
    (h : s.rdotr = dot s.r s.r) :
    cgStep f s = ⟨(cgSpecStep f ⟨s.x, s.r, s.p⟩).x, (cgSpecStep f ⟨s.x, s.r, s.p⟩).r,
      (cgSpecStep f ⟨s.x, s.r, s.p⟩).p,
      dot (cgSpecStep f ⟨s.x, s.r, s.p⟩).r (cgSpecStep f ⟨s.x, s.r, s.p⟩).r⟩ := by
  simp only [cgStep, cgSpecStep, h]

lemma cgLoop_x_eq_specLoop_x (f : (Fin n → K) → Fin n → K) (tol : K) :
    ∀ (k : ℕ) (s : CGState K n), s.rdotr = dot s.r s.r →
      (cgLoop f tol k s).x = (cgSpecLoop f tol k ⟨s.x, s.r, s.p⟩).x := by
  intro k
  induction k with
  | zero => intro s _; rfl
  | succ k ih =>
    intro s h
    rw [cgLoop, cgSpecLoop]
    rw [cgStep_eq_spec f s h]
    by_cases hlt : dot (cgSpecStep f ⟨s.x, s.r, s.p⟩).r (cgSpecStep f ⟨s.x, s.r, s.p⟩).r < tol
    · rw [if_pos hlt, if_pos hlt]
    · rw [if_neg hlt, if_neg hlt]
      exact ih _ rfl

lemma dot_comm (v w : Fin n → K) : dot v w = dot w v := by
  simp [dot, mul_comm]

lemma dot_addSmul_left (a b w : Fin n → K) (c : K) :
    dot (fun i => a i + c * b i) w = dot a w + c * dot b w := by
  simp [dot, add_mul, mul_assoc, Finset.sum_add_distrib, Finset.mul_sum]

lemma dot_subSmul_left (a b w : Fin n → K) (c : K) :
    dot (fun i => a i - c * b i) w = dot a w - c * dot b w := by
  simp [dot, sub_mul, mul_assoc, Finset.sum_sub_distrib, Finset.mul_sum]

lemma dot_self_nonneg (v : Fin n → K) : 0 ≤ dot v v :=
  Finset.sum_nonneg fun i _ => mul_self_nonneg (v i)

lemma dot_self_eq_zero_iff (v : Fin n → K) : dot v v = 0 ↔ v = fun _ => 0 := by
  rw [dot, Finset.sum_eq_zero_iff_of_nonneg fun i _ => mul_self_nonneg (v i)]
  constructor
  · intro h; funext i; exact mul_self_eq_zero.mp (h i (Finset.mem_univ i))
  · intro h; subst h; simp

lemma dot_self_pos_of_ne (v : Fin n → K) (hv : v ≠ fun _ => 0) : 0 < dot v v :=
  lt_of_le_of_ne (dot_self_nonneg v)
    (fun h => hv ((dot_self_eq_zero_iff v).mp h.symm))

lemma dot_zero_left (w : Fin n → K) : dot (fun _ => 0) w = 0 := by
  simp [dot]

/-- The invariant dot p r = rdotr is established at cgInit and preserved by
cgStep; while it holds with 0 < rdotr and f is positive definite, the
iteration's divisions are non-degenerate. -/
lemma cg_step_invariant (f : (Fin n → K) → Fin n → K)
    (hf : ∀ w : Fin n → K, w ≠ (fun _ => 0) → 0 < dot w (f w))
    (s : CGState K n) (hpr : dot s.p s.r = s.rdotr) (hpos : 0 < s.rdotr) :
    0 < dot s.p (f s.p) ∧
      dot (cgStep f s).p (cgStep f s).r = (cgStep f s).rdotr ∧
      (cgStep f s).rdotr = dot (cgStep f s).r (cgStep f s).r := by
  have hp0 : s.p ≠ fun _ => 0 := by
    intro h
    rw [h, dot_zero_left] at hpr
    rw [← hpr] at hpos
    exact lt_irrefl 0 hpos
  have hden : 0 < dot s.p (f s.p) := hf s.p hp0
  refine ⟨hden, ?_, rfl⟩
  have hr' : (cgStep f s).r = fun i => s.r i - s.rdotr / dot s.p (f s.p) * f s.p i := rfl
  have hporth : dot s.p (cgStep f s).r = 0 := by
    rw [hr', dot_comm, dot_subSmul_left, dot_comm s.r s.p, hpr, dot_comm (f s.p) s.p,
      div_mul_cancel₀ _ (ne_of_gt hden), sub_self]
  have hp' : (cgStep f s).p =
      fun i => (cgStep f s).r i +
        (cgStep f s).rdotr / s.rdotr * s.p i := rfl
  calc dot (cgStep f s).p (cgStep f s).r
      = dot (cgStep f s).r (cgStep f s).r +
          (cgStep f s).rdotr / s.rdotr * dot s.p (cgStep f s).r := by
        rw [hp', dot_addSmul_left]
    _ = (cgStep f s).rdotr := by rw [hporth, mul_zero, add_zero]; rfl

lemma cgLoopT_fst (f : (Fin n → K) → Fin n → K) (tol : K) :
    ∀ (k : ℕ) (s : CGState K n), (cgLoopT f tol k s).1 = cgLoop f tol k s := by
  intro k
  induction k with
  | zero => intro s; rfl
  | succ k ih =>
    intro s
    rw [cgLoopT, cgLoop]
    by_cases hlt : (cgStep f s).rdotr < tol
    · rw [if_pos hlt, if_pos hlt]
    · rw [if_neg hlt, if_neg hlt]
      exact ih _

lemma cgLoopT_len (f : (Fin n → K) → Fin n → K) (tol : K) :
    ∀ (k : ℕ) (s : CGState K n), (cgLoopT f tol k s).2.length ≤ k := by
  intro k
  induction k with
  | zero => intro s; exact le_refl 0
  | succ k ih =>
    intro s
    rw [cgLoopT]
    by_cases hlt : (cgStep f s).rdotr < tol
    · rw [if_pos hlt]; simp
    · rw [if_neg hlt]
      simpa using Nat.succ_le_succ (ih (cgStep f s))

lemma cgLoopT_divsOk (f : (Fin n → K) → Fin n → K)
    (hf : ∀ w : Fin n → K, w ≠ (fun _ => 0) → 0 < dot w (f w))
    (tol : K) (htol : 0 < tol) :
    ∀ (k : ℕ) (s : CGState K n), dot s.p s.r = s.rdotr → 0 < s.rdotr →
      divsOk (cgLoopT f tol k s).2 := by
  intro k
  induction k with
  | zero => intro s _ _ d hd; exact absurd hd (List.not_mem_nil d)
  | succ k ih =>
    intro s hpr hpos
    obtain ⟨hden, hpr', hrr'⟩ := cg_step_invariant f hf s hpr hpos
    rw [cgLoopT]
    by_cases hlt : (cgStep f s).rdotr < tol
    · rw [if_pos hlt]
      intro d hd
      rw [List.mem_singleton] at hd
      subst hd
      exact ⟨ne_of_gt hpos, ne_of_gt hden⟩
    · rw [if_neg hlt]
      intro d hd
      rcases List.mem_cons.mp hd with h | h
      · subst h; exact ⟨ne_of_gt hpos, ne_of_gt hden⟩
      · have hpos' : 0 < (cgStep f s).rdotr := lt_of_lt_of_le htol (not_lt.mp hlt)
        exact ih (cgStep f s) hpr' hpos' d h

/-- The first executed iteration of the solver always records the division
pair (dot b b, dot b (f b)): the loop body runs before the tolerance is
ever consulted. -/
lemma cgLoopT_head (f : (Fin n → K) → Fin n → K) (b : Fin n → K)
    (tol : K) (k : ℕ) (h : 1 ≤ k) :
    ((cgLoopT f tol k (cgInit b)).2).head? = some (dot b b, dot b (f b)) := by
  cases k with
  | zero => exact absurd h (by norm_num)
  | succ m =>
    rw [cgLoopT]
    by_cases hlt : (cgStep f (cgInit b)).rdotr < tol
    · rw [if_pos hlt]; rfl
    · rw [if_neg hlt]; rfl

end ConjugateGradientLemmas

/-- C1: the conjugate-gradient solver, given a matrix-vector-product
function f and a target vector b, follows exactly the claimed recurrence
(r and p initialized to b, x to zero; each iteration z = f(p),
alpha = (r.r)/(p.z), x += alpha*p, r -= alpha*z, beta = r_new.r_new/r_old.r_old,
p = r_new + beta*p), terminating after at most cg_iters iterations or as
soon as r.r has fallen below residual_tol at the end of an iteration, and
returning x; the source defaults are cg_iters = 10 and residual_tol = 1e-10. -/
theorem cg_follows_spec_recurrence {K : Type} [LinearOrderedField K] {n : ℕ}
    (f : (Fin n → K) → Fin n → K) (b : Fin n → K) (cg_iters : ℕ) (residual_tol : K) :
    conjugate_gradient f b cg_iters residual_tol = cgSpecRun f b cg_iters residual_tol ∧
    conjugate_gradient f b 10 (1e-10 : K) = cgSpecRun f b 10 (1e-10 : K) :=
  ⟨cgLoop_x_eq_specLoop_x f residual_tol cg_iters (cgInit b) rfl,
   cgLoop_x_eq_specLoop_x f (1e-10 : K) 10 (cgInit b) rfl⟩

/-- C6 counterexample: for the all-zero target vector b — a degenerate
input — even with a positive-definite matrix-vector product (here the
identity, i.e. A = 0 plus damping 1 times I), the very first iteration of
the solver divides rdotr = 0 by torch.dot(p, z) = 0; in float arithmetic
this 0/0 is NaN, which then propagates into the returned iterate, so the
solver does not return a finite vector on every degenerate input. -/
theorem cg_zero_b_division_by_zero :
    ((cgLoopT (fun w : Fin 1 → ℚ => w) (1e-10) 10 (cgInit fun _ => (0:ℚ))).2).head? =
      some (0, 0) ∧
    ¬ divsOk (cgLoopT (fun w : Fin 1 → ℚ => w) (1e-10) 10 (cgInit fun _ => (0:ℚ))).2 := by
  have h := cgLoopT_head (fun w : Fin 1 → ℚ => w) (fun _ => 0) (1e-10) 10 (by norm_num)
  simp only [dot_zero_left] at h
  refine ⟨h, ?_⟩
  intro hok
  cases hl : (cgLoopT (fun w : Fin 1 → ℚ => w) (1e-10) 10 (cgInit fun _ => (0:ℚ))).2 with
  | nil => rw [hl] at h; simp at h
  | cons a t =>
    rw [hl] at h hok
    have ha : a = (0, 0) := by simpa using h
    have hmem := hok a (List.mem_cons_self a t)
    rw [ha] at hmem
    exact hmem.1 rfl

/-- C6 (amended): the solver never raises on non-convergence and always
returns its current iterate after at most cg_iters iterations; and
whenever the target vector b is nonzero and the matrix-vector product f is
positive definite (as it is when nonzero damping is added to a positive
semi-definite curvature), every division executed by the solver has a
nonzero denominator, so no inf/NaN arises. For the all-zero b, however,
the first iteration divides 0 by 0 (see the counterexample). -/
theorem cg_pd_divisions_well_defined {K : Type} [LinearOrderedField K] {n : ℕ}
    (f : (Fin n → K) → Fin n → K) (b : Fin n → K) (cg_iters : ℕ) (tol : K)
    (hf : ∀ w : Fin n → K, w ≠ (fun _ => 0) → 0 < dot w (f w))
    (htol : 0 < tol) (hb : b ≠ fun _ => 0) :
    divsOk (cgLoopT f tol cg_iters (cgInit b)).2 ∧
    (cgLoopT f tol cg_iters (cgInit b)).2.length ≤ cg_iters ∧
    (cgLoopT f tol cg_iters (cgInit b)).1.x = conjugate_gradient f b cg_iters tol := by
  refine ⟨?_, cgLoopT_len f tol cg_iters (cgInit b), ?_⟩
  · exact cgLoopT_divsOk f hf tol htol cg_iters (cgInit b) rfl (dot_self_pos_of_ne b hb)
  · rw [cgLoopT_fst]; rfl

/-- Witness for C6 (amended) at the concrete positive-definite system
A = I on one dimension with b = (1) — the diagonal positive-definite test
case of the specification. -/
theorem cg_pd_divisions_well_defined_witness :
    divsOk (cgLoopT (fun w : Fin 1 → ℚ => w) (1e-10) 10 (cgInit fun _ => (1:ℚ))).2 ∧
    (cgLoopT (fun w : Fin 1 → ℚ => w) (1e-10) 10 (cgInit fun _ => (1:ℚ))).2.length ≤ 10 ∧
    (cgLoopT (fun w : Fin 1 → ℚ => w) (1e-10) 10 (cgInit fun _ => (1:ℚ))).1.x =
      conjugate_gradient (fun w : Fin 1 → ℚ => w) (fun _ => 1) 10 (1e-10) :=
  cg_pd_divisions_well_defined (fun w => w) (fun _ => 1) 10 (1e-10)
    (fun w hw => dot_self_pos_of_ne w hw)
    (by norm_num)
    (by intro h; have h0 := congrFun h 0; norm_num at h0)

/-- C9: for every cg_iters >= 1 the solver executes at least one full
iteration — the first recorded division pair is always
(dot b b, dot b (f b)), requiring one call of f and an unguarded division
by torch.dot(p, z) — even when the initial dot b b is already below
residual_tol, because the tolerance is checked only after the iteration's
updates; and for the all-zero b that first division is 0/0. Nothing in the
statement constrains the sign of the denominator: it is used unguarded. -/
theorem cg_first_iteration_always_runs {K : Type} [LinearOrderedField K] {n : ℕ}
    (f : (Fin n → K) → Fin n → K) (b : Fin n → K) (cg_iters : ℕ) (tol : K)
    (h : 1 ≤ cg_iters) :
    ((cgLoopT f tol cg_iters (cgInit b)).2).head? = some (dot b b, dot b (f b)) ∧
    ((b = fun _ => 0) →
      ((cgLoopT f tol cg_iters (cgInit b)).2).head? = some (0, 0)) := by
  refine ⟨cgLoopT_head f b tol cg_iters h, ?_⟩
  intro hb
  subst hb
  rw [cgLoopT_head f _ tol cg_iters h, dot_zero_left, dot_zero_left]

/-- Witness for C9: with b = (0) and residual_tol = 1 the initial
dot b b = 0 is already below the tolerance, yet the first iteration runs
and records the division 0/0. -/
theorem cg_first_iteration_always_runs_witness :
    (1 : ℕ) ≤ 10 ∧
    ((cgLoopT (fun w : Fin 1 → ℚ => w) 1 10 (cgInit fun _ => (0:ℚ))).2).head? =
      some (0, 0) :=
  ⟨by norm_num,
   (cg_first_iteration_always_runs (fun w => w) (fun _ => 0) 10 1 (by norm_num)).2 rfl⟩

/-- C2: the Fisher-vector product of a direction v equals
(F + damping*I)*v with F the Hessian (here: second derivative in the
one-dimensional parameter coordinate) of the mean KL divergence between
the policy's current distribution (frozen reference) and itself
(differentiable argument), computed by two nested differentiation passes
and summed with damping*v — provided the mean-KL objective is twice
differentiable at the current parameters. -/
theorem fvp_is_damped_hessian_vector_product {D : Type} (klf : D → D → ℝ) (dists : ℝ → D)
    (theta0 v damping : ℝ)
    (h : DifferentiableAt ℝ (deriv (avgKL klf dists theta0)) theta0) :
    fisher_vector_product klf dists theta0 v damping =
      deriv (deriv (avgKL klf dists theta0)) theta0 * v + damping * v := by
  unfold fisher_vector_product
  rw [deriv_mul_const h]
  ring

/-- Witness for C2 at the concrete quadratic KL functional
klf a b = (b - a)^2 with dists the identity, current parameter 0,
direction 2, damping 1/1000. -/
theorem fvp_is_damped_hessian_vector_product_witness :
    DifferentiableAt ℝ (deriv (avgKL (fun a b : ℝ => (b - a) * (b - a)) id 0)) 0 ∧
    fisher_vector_product (fun a b : ℝ => (b - a) * (b - a)) id 0 2 (1/1000) =
      deriv (deriv (avgKL (fun a b : ℝ => (b - a) * (b - a)) id 0)) 0 * 2 + (1/1000) * 2 := by
  have e1 : avgKL (fun a b : ℝ => (b - a) * (b - a)) id 0 = fun theta : ℝ => theta * theta := by
    funext theta
    simp [avgKL]
  have e2 : deriv (fun theta : ℝ => theta * theta) = fun theta : ℝ => theta + theta := by
    funext theta
    rw [deriv_mul differentiableAt_id' differentiableAt_id']
    simp
  have hd : DifferentiableAt ℝ (deriv (avgKL (fun a b : ℝ => (b - a) * (b - a)) id 0)) 0 := by
    rw [e1, e2]
    exact differentiableAt_id'.add differentiableAt_id'
  exact ⟨hd, fvp_is_damped_hessian_vector_product _ _ 0 2 (1/1000) hd⟩

/-- C3: in the natural-gradient step, after the CG solver returns the
direction x for the policy gradient g, the applied update is exactly
theta_new = theta_old - s * x with s = sqrt(2*delta / (g.x + 1e-8)) — the
update is assigned directly, with no line search and no cap on s — and at
g.x = 0 (with the default delta = 0.01) the scale already exceeds 1000, an
oversized step. -/
theorem natural_update_formula_and_unbounded_scale :
    (∀ (n m : ℕ) (polGrad fvp : (Fin n → ℝ) → Fin n → ℝ) (delta : ℝ) (s : TrainState n m),
      (naturalStep polGrad fvp delta s).policyParams = fun i =>
        s.policyParams i -
          Real.sqrt (2 * delta /
            (dot (polGrad s.policyParams)
              (conjugate_gradient fvp (polGrad s.policyParams) 10 (1e-10)) + 1e-8)) *
          conjugate_gradient fvp (polGrad s.policyParams) 10 (1e-10) i) ∧
    1000 < Real.sqrt (2 * (1/100) / (0 + 1e-8)) := by
  constructor
  · intro n m polGrad fvp delta s
    rfl
  · rw [show (2 * (1/100) / ((0:ℝ) + 1e-8)) = 2000000 by norm_num]
    have h2 : (1000:ℝ) = Real.sqrt (1000^2) := (Real.sqrt_sq (by norm_num)).symm
    rw [h2]
    apply Real.sqrt_lt_sqrt (by positivity)
    norm_num

/-- C8: the natural-gradient step writes only the policy's parameter
vector; the value function's parameters are returned unchanged, whatever
the policy-gradient oracle, the Fisher-vector-product oracle and the
trust-region bound are. -/
theorem natural_step_preserves_val_fn :
    ∀ (n m : ℕ) (polGrad fvp : (Fin n → ℝ) → Fin n → ℝ) (delta : ℝ) (s : TrainState n m),
      (naturalStep polGrad fvp delta s).valFnParams = s.valFnParams :=
  fun _ _ _ _ _ _ => rfl

lemma learnSubstep_iterate (k : ℕ) (c : UpdateCounts) :
    learnSubstep^[k] c =
      ⟨c.sampled + k, c.criticSteps + k, c.actorSteps + k, c.polyakPi + k, c.polyakQf + k⟩ := by
  induction k with
  | zero => rfl
  | succ k ih =>
    rw [Function.iterate_succ_apply', ih]
    rfl

/-- C4 counterexample: with episode length 3 and updates_per_step = 1/2
(and the update condition satisfied), the code performs
int(3 * 0.5) = 1 learning substep, while the claim's round(3 * 0.5) = 2;
so the number of substeps is not round(episode_length * updates_per_step). -/
theorem ddpg_substeps_round_counterexample :
    (ddpgUpdateBlock true 3 1000 5 1 (1/2) ⟨0, 0, 0, 0, 0⟩).1.criticSteps = 1 ∧
    round ((3:ℚ) * (1/2)) = 2 := by
  constructor
  · unfold ddpgUpdateBlock
    rw [if_pos (And.intro (Or.inl rfl) (by norm_num)), learnSubstep_iterate]
    norm_num [pyInt]
  · norm_num [round_eq]

/-- C4 (amended): whenever an episode ends (dones[0]) or the maximum
episode length is reached, and the replay buffer holds at least one
minibatch, exactly int(episode_length * updates_per_step) learning
substeps are performed — Python's int() truncates toward zero, it does not
round — each consisting of one minibatch sample, one critic gradient step,
one actor gradient step, and one Polyak update of each target network; the
episode-length counter is then reset to 0. -/
theorem ddpg_substeps_truncated_count (done0 : Bool)
    (ep_length max_ep_length replaySize mb_size : ℕ) (ups : ℚ) (c : UpdateCounts)
    (h : (done0 = true ∨ ep_length = max_ep_length) ∧ mb_size ≤ replaySize) :
    ddpgUpdateBlock done0 ep_length max_ep_length replaySize mb_size ups c =
      (⟨c.sampled + (pyInt (ep_length * ups)).toNat,
        c.criticSteps + (pyInt (ep_length * ups)).toNat,
        c.actorSteps + (pyInt (ep_length * ups)).toNat,
        c.polyakPi + (pyInt (ep_length * ups)).toNat,
        c.polyakQf + (pyInt (ep_length * ups)).toNat⟩, 0) := by
  unfold ddpgUpdateBlock
  rw [if_pos h, learnSubstep_iterate]

/-- Witness for C4 (amended): episode length 3, updates_per_step = 1/2,
buffer of size 5 with minibatch size 1: exactly one substep of each kind. -/
theorem ddpg_substeps_truncated_count_witness :
    ((true = true ∨ (3:ℕ) = 1000) ∧ (1:ℕ) ≤ 5) ∧
    ddpgUpdateBlock true 3 1000 5 1 (1/2) ⟨0, 0, 0, 0, 0⟩ = (⟨1, 1, 1, 1, 1⟩, 0) := by
  have h : (true = true ∨ (3:ℕ) = 1000) ∧ (1:ℕ) ≤ 5 := ⟨Or.inl rfl, by norm_num⟩
  refine ⟨h, ?_⟩
  rw [ddpg_substeps_truncated_count true 3 1000 5 1 (1/2) ⟨0, 0, 0, 0, 0⟩ h]
  norm_num [pyInt]

/-- C5 counterexample: at a step where the episode-length counter equals
max_ep_length (here 5 = 5), environment 0's done flag is stored as false
even when it is a true terminal (claim says a true terminal keeps its flag
true), and the done flag of every other parallel environment is stored
unchanged (here environment 1 keeps true), not excluded. -/
theorem done_flag_true_terminal_overwritten :
    storeDones [true] 5 5 = [false] ∧ storeDones [true, true] 5 5 = [false, true] := by
  constructor <;> decide

/-- C5 (amended): when the shared episode-length counter equals
max_ep_length, the stored done list is the input list with entry 0
unconditionally overwritten to false (whether or not environment 0's
termination was a true terminal); the entries of all other environments
are stored unchanged. At every other step the whole list is stored
unchanged. -/
theorem done_flag_cutoff_behavior (dones : List Bool) (ep_length max_ep_length : ℕ) :
    (ep_length = max_ep_length →
      storeDones dones ep_length max_ep_length = dones.set 0 false) ∧
    (ep_length ≠ max_ep_length →
      storeDones dones ep_length max_ep_length = dones) := by
  constructor
  · intro h; unfold storeDones; rw [if_pos h]
  · intro h; unfold storeDones; rw [if_neg h]

/-- Witness for C5 (amended) at the cutoff step (5 = 5) and at a
non-cutoff step (4 of 5). -/
theorem done_flag_cutoff_behavior_witness :
    ((5:ℕ) = 5 ∧ storeDones [true] 5 5 = [true].set 0 false) ∧
    ((4:ℕ) ≠ 5 ∧ storeDones [true] 4 5 = [true]) :=
  ⟨⟨rfl, (done_flag_cutoff_behavior [true] 5 5).1 rfl⟩,
   ⟨by norm_num, (done_flag_cutoff_behavior [true] 4 5).2 (by norm_num)⟩⟩

/-- C7 counterexample: calling ddpg with gamma = 3/2 (outside [0,1]) is
accepted without any error before a training step (as is natural with
gamma = 3/2), and the value is used as-is in the critic target —
qTarget (3/2) 0 0 1 = 3/2, not a value clamped into [0,1]: there is no
fail-fast validation of the discount. -/
theorem config_gamma_out_of_range_accepted :
    ddpgConfigCheck (3/2) = Except.ok () ∧
    naturalConfigCheck (3/2) (97/100) (1/100) = Except.ok () ∧
    qTarget (3/2) 0 0 1 = 3/2 := by
  refine ⟨rfl, rfl, ?_⟩
  norm_num [qTarget]

/-- C7 (amended): neither the natural nor the ddpg entry point validates
the discount gamma (nor gaelam or delta): every value — in particular
gamma outside [0,1] — is accepted with no error raised before any
training step, and no silent clamping occurs either: the discount enters
the critic target exactly as passed. (The replay-capacity and batch-size
configuration checks belong to the replay buffer of
proj/common/sampling.py, which is outside the verified sources, and are
not asserted either way.) -/
theorem config_no_validation_no_clamp :
    (∀ gamma gaelam delta : ℚ, naturalConfigCheck gamma gaelam delta = Except.ok ()) ∧
    (∀ gamma : ℚ, ddpgConfigCheck gamma = Except.ok ()) ∧
    (∀ gamma : ℚ, qTarget gamma 0 0 1 = gamma) := by
  refine ⟨fun _ _ _ => rfl, fun _ => rfl, fun gamma => ?_⟩
  simp [qTarget]

/-- C10: explained_variance_1d returns exactly 1 when the variance of y is
close to zero (np.isclose with default tolerances: at most 1e-8) and the
variance of ypred is at most 1e-8; returns exactly 0 when the variance of
y is close to zero but the variance of ypred exceeds 1e-8; and otherwise
returns 1 - Var(y - ypred)/(Var(y) + 1e-8). The source's assert that both
inputs are one-dimensional is reflected in the inputs' type. -/
theorem explained_variance_cases {m : ℕ} (ypred y : Fin m → ℚ) :
    (npIsCloseZero (torchVar y) = true →
      (torchVar ypred ≤ 1e-8 → explained_variance_1d ypred y = 1) ∧
      (1e-8 < torchVar ypred → explained_variance_1d ypred y = 0)) ∧
    (npIsCloseZero (torchVar y) = false →
      explained_variance_1d ypred y =
        1 - torchVar (fun i => y i - ypred i) / (torchVar y + 1e-8)) := by
  unfold explained_variance_1d
  constructor
  · intro hcl
    rw [if_pos hcl]
    constructor
    · intro hle; rw [if_neg (not_lt.mpr hle)]
    · intro hlt; rw [if_pos hlt]
  · intro hcl
    have hne : ¬ (npIsCloseZero (torchVar y) = true) := by simp [hcl]
    rw [if_neg hne]

/-- Witness for C10: y = (1, 1) has variance 0 (close to zero) and
ypred = (0, 1) has variance 1/2 > 1e-8, so the diagnostic returns 0. -/
theorem explained_variance_cases_witness :
    npIsCloseZero (torchVar (![1, 1] : Fin 2 → ℚ)) = true ∧
    (1e-8 : ℚ) < torchVar (![0, 1] : Fin 2 → ℚ) ∧
    explained_variance_1d (![0, 1] : Fin 2 → ℚ) ![1, 1] = 0 := by
  have h1 : npIsCloseZero (torchVar (![1, 1] : Fin 2 → ℚ)) = true := by
    norm_num [npIsCloseZero, torchVar, torchMean, Fin.sum_univ_two]
  have h2 : (1e-8 : ℚ) < torchVar (![0, 1] : Fin 2 → ℚ) := by
    norm_num [torchVar, torchMean, Fin.sum_univ_two]
  exact ⟨h1, h2, ((explained_variance_cases (![0, 1]) (![1, 1])).1 h1).2 h2⟩
